import Mathlib

/-!
Verification of the Titanic survival pipeline
(`src/01_data_clean.py` and `src/data_analysis.py`).

The two Python scripts are shallowly embedded below: dataframes become
lists of records (or lists of rows of rationals), pandas/numpy numeric
columns become `ℚ` with `Option ℚ` for cells that may hold NaN, and the
library-opaque decision tree is a function parameter.  Each embedded
definition keeps the name of the source function it translates.
-/

namespace Titanic

/-- Python `round(x, 4)` rounds half to even (banker's rounding).
`roundHalfEven q` is the integer nearest to `q`, ties to the even one. -/
def roundHalfEven (q : ℚ) : ℤ :=
  let f := ⌊q⌋
  let frac := q - f
  if frac < 1/2 then f
  else if 1/2 < frac then f + 1
  else if f % 2 = 0 then f else f + 1

/-- `round(x, 4)` from the source: round to 4 decimal places. -/
def round4 (q : ℚ) : ℚ := (roundHalfEven (q * 10000) : ℚ) / 10000

/-- One row of a prediction table produced by `predict`: the `Survived`
target together with the appended `Prediction` column. -/
structure PredRow where
  Survived : ℚ
  Prediction : ℚ
deriving DecidableEq, Repr, Inhabited

/-- `df.Survived[df.Survived == df.Prediction].sum()` from
`get_accuracies` (data_analysis.py line 125): the SUM of the `Survived`
values over the rows where prediction and target agree. -/
def correct_predictions (df : List PredRow) : ℚ :=
  ((df.filter (fun r => decide (r.Survived = r.Prediction))).map (fun r => r.Survived)).sum

/-- `df.Survived[df.Survived != df.Prediction].sum()` from
`get_accuracies` (data_analysis.py line 126): the SUM of the `Survived`
values over the rows where prediction and target differ. -/
def incorrect_predictions (df : List PredRow) : ℚ :=
  ((df.filter (fun r => decide (¬ r.Survived = r.Prediction))).map (fun r => r.Survived)).sum

/-- `get_accuracies(df, set_name)` (data_analysis.py lines 124-129).
Returns `[set_name, total, correct, incorrect, accuracy]`.  The sums are
pandas/numpy `int64` scalars, so `correct / total` with `total = 0` does
not raise: numpy emits a RuntimeWarning and yields a non-finite float
(NaN for 0/0).  The non-finite outcome is modelled as `none`. -/
def get_accuracies (df : List PredRow) (set_name : String) :
    String × ℚ × ℚ × ℚ × Option ℚ :=
  let correct := correct_predictions df
  let incorrect := incorrect_predictions df
  let total := correct + incorrect
  let accuracy : Option ℚ := if total = 0 then none else some (round4 (correct / total))
  (set_name, total, correct, incorrect, accuracy)

/-- The number of rows of `df` on which prediction and target agree
(what the spec says `correct` is). -/
def matchCount (df : List PredRow) : ℕ :=
  df.countP (fun r => decide (r.Survived = r.Prediction))

/-- A 10-row prediction table whose predictions match the targets in
exactly 8 rows: targets `[1,1,1,1,0,0,0,0,0,0]`,
predictions `[1,1,1,1,0,0,0,0,1,1]`. -/
def tenRowTable : List PredRow :=
  [⟨1, 1⟩, ⟨1, 1⟩, ⟨1, 1⟩, ⟨1, 1⟩, ⟨0, 0⟩, ⟨0, 0⟩, ⟨0, 0⟩, ⟨0, 0⟩, ⟨0, 1⟩, ⟨0, 1⟩]

/-- C1: claimed: on every prediction table `correct` is the number of rows
where `Prediction` equals `Survived`, `incorrect` the number where they
differ, `total` the row count, `accuracy = correct/total` rounded to 4
places; on a 10-row table with 8 matches it returns accuracy 0.8 and
total 10.  The code instead SUMS the `Survived` values over those row
sets (`.sum()` on the selected `Survived` column, not a row count): on
`tenRowTable` (8 of 10 rows match) it returns total 4, correct 4,
incorrect 0 and accuracy 1, not total 10, correct 8, incorrect 2,
accuracy 0.8. -/
theorem c1_get_accuracies_sums_survived_not_counts :
    matchCount tenRowTable = 8 ∧
    tenRowTable.length = 10 ∧
    get_accuracies tenRowTable "train" = ("train", 4, 4, 0, some 1) ∧
    get_accuracies tenRowTable "train" ≠ ("train", 10, 8, 2, some (8/10)) := by
  refine ⟨by norm_num [matchCount, tenRowTable, List.countP, List.countP.go], ?_, ?_, ?_⟩ <;>
    norm_num [get_accuracies, correct_predictions, incorrect_predictions, tenRowTable,
      List.filter, round4, roundHalfEven]

/-- C7 counterexample: the claim says that with `total = 0` the code
raises a division fault.  It does not: on the one-row table with
`Survived = 0, Prediction = 0` (so `total = 0`), `get_accuracies`
returns normally — the numpy scalar division only emits a warning and
produces NaN (modelled `none`), which is returned inside the result
tuple as a sentinel. -/
theorem c7_counterexample_total_zero_returns_nan :
    get_accuracies [⟨0, 0⟩] "test" = ("test", 0, 0, 0, none) := by
  norm_num [get_accuracies, correct_predictions, incorrect_predictions, List.filter]

/-- C7 (amended): when `total = correct + incorrect = 0`,
`get_accuracies` does not raise; the division `correct/total` is
performed on numpy int64 scalars, which yields a non-finite float (NaN)
under a mere RuntimeWarning, and the function silently returns the
tuple with that NaN (modelled `none`) in the accuracy slot. -/
theorem c7_total_zero_silently_returns_nan (df : List PredRow) (set_name : String)
    (h : correct_predictions df + incorrect_predictions df = 0) :
    get_accuracies df set_name =
      (set_name, 0, correct_predictions df, incorrect_predictions df, none) := by
  simp [get_accuracies, h]

/-- Witness for C7's amended theorem at a concrete two-row table. -/
theorem c7_witness :
    get_accuracies [⟨0, 0⟩, ⟨0, 1⟩] "train" =
      ("train", 0, correct_predictions [⟨0, 0⟩, ⟨0, 1⟩],
        incorrect_predictions [⟨0, 0⟩, ⟨0, 1⟩], none) :=
  c7_total_zero_silently_returns_nan [⟨0, 0⟩, ⟨0, 1⟩] "train"
    (by norm_num [correct_predictions, incorrect_predictions, List.filter])

/-- `np.argmax` (data_analysis.py line 89): index of the first occurrence
of the maximum value of the list.  numpy raises on an empty array; here
the list is never empty (49 candidate depths), and the `[]` case is a
junk value. -/
def argmax : List ℚ → ℕ
  | [] => 0
  | [_] => 0
  | x :: y :: xs =>
      let j := argmax (y :: xs)
      if x < (y :: xs).getD j 0 then j + 1 else 0

/-- `argmax` returns an in-bounds index of a maximal element, and it is
the first such index: every earlier entry is strictly smaller. -/
theorem argmax_spec : ∀ (l : List ℚ), l ≠ [] →
    argmax l < l.length ∧
    (∀ k, k < l.length → l.getD k 0 ≤ l.getD (argmax l) 0) ∧
    (∀ k, k < argmax l → l.getD k 0 < l.getD (argmax l) 0)
  | [x], _ => by
      refine ⟨by simp [argmax], fun k hk => ?_, fun k hk => by simp [argmax] at hk⟩
      have hk0 : k = 0 := by simpa using hk
      subst hk0
      simp [argmax]
  | x :: y :: xs, _ => by
      obtain ⟨ih1, ih2, ih3⟩ := argmax_spec (y :: xs) (by simp)
      have hax : argmax (x :: y :: xs) =
          if x < (y :: xs).getD (argmax (y :: xs)) 0 then argmax (y :: xs) + 1 else 0 := rfl
      by_cases hx : x < (y :: xs).getD (argmax (y :: xs)) 0
      · rw [if_pos hx] at hax
        rw [hax]
        refine ⟨by simpa using Nat.succ_lt_succ ih1, fun k hk => ?_, fun k hk => ?_⟩
        · cases k with
          | zero =>
              rw [List.getD_cons_zero, List.getD_cons_succ]
              exact le_of_lt hx
          | succ k =>
              rw [List.getD_cons_succ, List.getD_cons_succ]
              exact ih2 k (by simpa using hk)
        · cases k with
          | zero =>
              rw [List.getD_cons_zero, List.getD_cons_succ]
              exact hx
          | succ k =>
              rw [List.getD_cons_succ, List.getD_cons_succ]
              exact ih3 k (Nat.lt_of_succ_lt_succ hk)
      · rw [if_neg hx] at hax
        rw [hax]
        push_neg at hx
        refine ⟨by simp, fun k hk => ?_, fun k hk => by omega⟩
        cases k with
        | zero => rw [List.getD_cons_zero]
        | succ k =>
            rw [List.getD_cons_succ, List.getD_cons_zero]
            exact le_trans (ih2 k (by simpa using hk)) hx

/-- `cross_validate(Xtrain, ytrain)` (data_analysis.py lines 80-90).
The library call `cross_val_score(tree, Xtrain, ytrain, cv=10).mean()`
is opaque; it is abstracted as `cvMean depth`, the mean of the 10-fold
cross-validation accuracies of a fresh tree of maximal depth `depth` on
the fixed training set.  The loop evaluates `cvMean` on every depth in
`range(1, 50)` and `np.argmax` picks the first maximal entry. -/
def cross_validate (cvMean : ℕ → ℚ) : ℕ :=
  let max_depths := (List.range 49).map (fun i => i + 1)
  let accuracies := max_depths.map cvMean
  max_depths.getD (argmax accuracies) 0

/-- Entries of the evaluated accuracy list. -/
theorem accuracies_getD (cvMean : ℕ → ℚ) (k : ℕ) (hk : k < 49) :
    (((List.range 49).map (fun i => i + 1)).map cvMean).getD k 0 = cvMean (k + 1) := by
  rw [List.map_map, List.getD_eq_getElem?_getD, List.getElem?_map, List.getElem?_range hk]
  rfl

/-- C4: `cross_validate` evaluates every candidate depth in `[1, 49]`
(the accuracy list is the image of all 49 candidates) and returns a
depth in `[1, 49]` whose mean cross-validation accuracy is greater than
or equal to every candidate's, and strictly greater than that of every
lower depth (first-occurrence tie-breaking of `np.argmax`, i.e. the
lowest depth among the tied maxima). -/
theorem c4_cross_validate_best_depth (cvMean : ℕ → ℚ) :
    (((List.range 49).map (fun i => i + 1)).map cvMean).length = 49 ∧
    1 ≤ cross_validate cvMean ∧ cross_validate cvMean ≤ 49 ∧
    (∀ e, 1 ≤ e → e ≤ 49 → cvMean e ≤ cvMean (cross_validate cvMean)) ∧
    (∀ e, 1 ≤ e → e < cross_validate cvMean → cvMean e < cvMean (cross_validate cvMean)) := by
  have hlen : (((List.range 49).map (fun i => i + 1)).map cvMean).length = 49 := by simp
  obtain ⟨h1, h2, h3⟩ :=
    argmax_spec (((List.range 49).map (fun i => i + 1)).map cvMean)
      (List.ne_nil_of_length_pos (by rw [hlen]; omega))
  rw [hlen] at h1
  have hd : cross_validate cvMean =
      argmax (((List.range 49).map (fun i => i + 1)).map cvMean) + 1 := by
    show (((List.range 49).map (fun i => i + 1)).getD _ 0) = _
    rw [List.getD_eq_getElem?_getD, List.getElem?_map, List.getElem?_range h1]
    rfl
  refine ⟨hlen, by omega, by omega, fun e he1 he2 => ?_, fun e he1 he2 => ?_⟩
  · have hk := h2 (e - 1) (by omega)
    rw [hlen] at *
    rw [accuracies_getD cvMean (e - 1) (by omega), accuracies_getD cvMean _ h1] at hk
    have : e - 1 + 1 = e := by omega
    rw [this] at hk
    rw [hd]
    exact hk
  · have hk := h3 (e - 1) (by omega)
    rw [accuracies_getD cvMean (e - 1) (by omega), accuracies_getD cvMean _ h1] at hk
    have : e - 1 + 1 = e := by omega
    rw [this] at hk
    rw [hd]
    exact hk

/-- Witness for C4 at a concrete score function peaking at depth 3. -/
theorem c4_witness :
    1 ≤ cross_validate (fun d => if d = 3 then 1 else 0) ∧
    (fun d : ℕ => if d = 3 then (1 : ℚ) else 0) 5 ≤
      (fun d : ℕ => if d = 3 then (1 : ℚ) else 0)
        (cross_validate (fun d => if d = 3 then 1 else 0)) :=
  ⟨(c4_cross_validate_best_depth (fun d => if d = 3 then 1 else 0)).2.1,
   (c4_cross_validate_best_depth (fun d => if d = 3 then 1 else 0)).2.2.2.1 5
     (by norm_num) (by norm_num)⟩

/-- The comparison underlying `importances.argsort()`: ascending by
value, ties kept in original index order.  numpy sorts arrays of fewer
than 16 elements (here: 6 importances) by insertion sort, which is
stable, so equal values keep their original relative order. -/
def argsortRel (v : List ℚ) (i j : ℕ) : Prop :=
  v.getD i 0 < v.getD j 0 ∨ (v.getD i 0 = v.getD j 0 ∧ i ≤ j)

instance argsortRelDecidable (v : List ℚ) : DecidableRel (argsortRel v) := fun i j => by
  unfold argsortRel
  infer_instance

theorem argsortRel_total (v : List ℚ) : ∀ i j, argsortRel v i j ∨ argsortRel v j i := by
  intro i j
  unfold argsortRel
  rcases lt_trichotomy (v.getD i 0) (v.getD j 0) with h | h | h
  · exact Or.inl (Or.inl h)
  · rcases le_total i j with hij | hij
    · exact Or.inl (Or.inr ⟨h, hij⟩)
    · exact Or.inr (Or.inr ⟨h.symm, hij⟩)
  · exact Or.inr (Or.inl h)

theorem argsortRel_trans (v : List ℚ) : ∀ i j k,
    argsortRel v i j → argsortRel v j k → argsortRel v i k := by
  intro i j k hij hjk
  unfold argsortRel at *
  rcases hij with h1 | ⟨h1, hle1⟩
  · rcases hjk with h2 | ⟨h2, _⟩
    · exact Or.inl (lt_trans h1 h2)
    · exact Or.inl (h2 ▸ h1)
  · rcases hjk with h2 | ⟨h2, hle2⟩
    · exact Or.inl (h1 ▸ h2)
    · exact Or.inr ⟨h1.trans h2, hle1.trans hle2⟩

/-- `importances.argsort()` (data_analysis.py line 140): the indices
`0 .. n-1` ordered so that the importance values are ascending, equal
values keeping their original relative order. -/
def argsort (v : List ℚ) : List ℕ :=
  (List.range v.length).insertionSort (argsortRel v)

theorem argsort_perm (v : List ℚ) : (argsort v).Perm (List.range v.length) :=
  List.perm_insertionSort (argsortRel v) (List.range v.length)

theorem argsort_sorted (v : List ℚ) : List.Pairwise (argsortRel v) (argsort v) := by
  haveI : IsTotal ℕ (argsortRel v) := ⟨argsortRel_total v⟩
  haveI : IsTrans ℕ (argsortRel v) := ⟨argsortRel_trans v⟩
  exact List.sorted_insertionSort (argsortRel v) (List.range v.length)

/-- `feature_rank(tree, features)` (data_analysis.py lines 138-147),
with the fitted tree abstracted by its `feature_importances_` vector.
`importance_indices = importances.argsort()[::-1]`, and row `i` of the
returned table is
`[i+1, features[importance_indices[i]], importances[importance_indices[i]]]`. -/
def feature_rank (importances : List ℚ) (features : List String) :
    List (ℕ × String × ℚ) :=
  let importance_indices := (argsort importances).reverse
  (List.range features.length).map
    (fun i => (i + 1, features.getD (importance_indices.getD i 0) "",
      importances.getD (importance_indices.getD i 0) 0))

/-- Entries of a mapped index range. -/
theorem getD_map_range {β : Type} (f : ℕ → β) (d : β) {k n : ℕ} (hk : k < n) :
    ((List.range n).map f).getD k d = f k := by
  rw [List.getD_eq_getElem?_getD, List.getElem?_map, List.getElem?_range hk]
  rfl

/-- C3 (amended): `feature_rank` returns one row per feature, with ranks
`1..N` in order; row `i` shows the feature and importance at position
`i` of `importance_indices = argsort(importances)[::-1]`, which is a
permutation of all the feature positions ordered by importance
descending — but features with EQUAL importance appear in the REVERSE of
their original listing order (the ascending argsort is stable, and
reversing it flips the order of ties), not in original order as
claimed. -/
theorem c3_feature_rank_descending_ties_reversed
    (importances : List ℚ) (features : List String)
    (h : importances.length = features.length) :
    (feature_rank importances features).length = features.length ∧
    (∀ i, i < features.length →
      (feature_rank importances features).getD i (0, "", 0) =
        (i + 1, features.getD ((argsort importances).reverse.getD i 0) "",
          importances.getD ((argsort importances).reverse.getD i 0) 0)) ∧
    ((argsort importances).reverse).Perm (List.range features.length) ∧
    List.Pairwise
      (fun a b => importances.getD b 0 < importances.getD a 0 ∨
        (importances.getD a 0 = importances.getD b 0 ∧ b < a))
      ((argsort importances).reverse) := by
  refine ⟨by simp [feature_rank], fun i hi => ?_, ?_, ?_⟩
  · exact getD_map_range _ _ hi
  · exact ((argsort importances).reverse_perm.trans (argsort_perm importances)).trans
      (by rw [h])
  · rw [List.pairwise_reverse]
    have hnd : (argsort importances).Nodup :=
      ((argsort_perm importances).symm.nodup (List.nodup_range _))
    have hcomb := List.Pairwise.and (argsort_sorted importances) hnd
    refine hcomb.imp ?_
    rintro a b ⟨hr | ⟨heq, hle⟩, hne⟩
    · exact Or.inl hr
    · exact Or.inr ⟨heq.symm, lt_of_le_of_ne hle hne⟩

/-- C3 counterexample: on importances `[0.1, 0.5, 0.4, 0, 0, 0]` over
features `[A, B, C, D, E, F]`, the rank order produced by the code is
`B, C, A, F, E, D` — the three zero-importance features D, E, F appear
at ranks 4, 5, 6 in REVERSED original order, not in original order
`D, E, F` as the claim states. -/
theorem c3_counterexample_ties_not_in_original_order :
    (feature_rank [1/10, 1/2, 2/5, 0, 0, 0] ["A", "B", "C", "D", "E", "F"]).map
        (fun r => r.2.1) = ["B", "C", "A", "F", "E", "D"] ∧
    (["B", "C", "A", "F", "E", "D"] : List String) ≠ ["B", "C", "A", "D", "E", "F"] := by
  constructor
  · norm_num [feature_rank, argsort, argsortRel, List.insertionSort, List.orderedInsert,
      List.range_succ, List.getD]
  · decide

/-- Witness for C3's amended theorem at the concrete input of the
counterexample. -/
theorem c3_witness :
    (feature_rank [1/10, 1/2, 2/5, 0, 0, 0] ["A", "B", "C", "D", "E", "F"]).length = 6 ∧
    ((argsort [1/10, 1/2, 2/5, 0, 0, 0]).reverse).Perm (List.range 6) :=
  ⟨(c3_feature_rank_descending_ties_reversed [1/10, 1/2, 2/5, 0, 0, 0]
      ["A", "B", "C", "D", "E", "F"] (by simp)).1,
   (c3_feature_rank_descending_ties_reversed [1/10, 1/2, 2/5, 0, 0, 0]
      ["A", "B", "C", "D", "E", "F"] (by simp)).2.2.1⟩

/-- A passenger record as handled by `01_data_clean.py` after the column
projection of `main` (lines 36-37): columns
`Pclass, Sex, Age, SibSp, Parch, Fare, Survived`.  Numeric cells are
`Option ℚ` with `none` for NaN; `Survived` is `none` for a test
passenger whose identifier was absent from the label file (the `join`
on line 40 leaves the target missing).  The type of the `Sex` cell is a
parameter: `Option String` before the categorical recoding, `Option ℚ`
after it. -/
structure Row (σ : Type) where
  Pclass : Option ℚ
  Sex : σ
  Age : Option ℚ
  SibSp : Option ℚ
  Parch : Option ℚ
  Fare : Option ℚ
  Survived : Option ℚ
deriving DecidableEq, Repr, Inhabited

abbrev RawRow := Row (Option String)

abbrev CleanRow := Row (Option ℚ)

/-- The non-NaN entries of a column, in order (pandas `mean` and
`median` skip NaN). -/
def nonMissing (col : List (Option ℚ)) : List ℚ := col.filterMap id

/-- The arithmetic mean of a list of rationals. -/
def meanSpec (xs : List ℚ) : ℚ := xs.sum / xs.length

/-- The median of a list of rationals: the middle entry of the sorted
list when the count is odd, the mean of the two middle entries when it
is even (pandas' default linear interpolation). -/
def medianSpec (xs : List ℚ) : ℚ :=
  let s := xs.insertionSort (fun a b => a ≤ b)
  if s.length % 2 = 1 then s.getD (s.length / 2) 0
  else (s.getD (s.length / 2 - 1) 0 + s.getD (s.length / 2) 0) / 2

/-- `df.Age.mean()`: mean of the non-NaN entries, NaN (`none`) when the
column has no values. -/
def colMean (col : List (Option ℚ)) : Option ℚ :=
  if (nonMissing col).length = 0 then none else some (meanSpec (nonMissing col))

/-- `df.Fare.median()`: median of the non-NaN entries, NaN (`none`)
when the column has no values. -/
def colMedian (col : List (Option ℚ)) : Option ℚ :=
  if (nonMissing col).length = 0 then none else some (medianSpec (nonMissing col))

/-- `calcNAN(df)` (01_data_clean.py lines 53-54): the dict
`{'Age': df.Age.mean(), 'Fare': df.Fare.median()}`, as the pair
(Age statistic, Fare statistic). -/
def calcNAN (df : List RawRow) : Option ℚ × Option ℚ :=
  (colMean (df.map (fun r => r.Age)), colMedian (df.map (fun r => r.Fare)))

/-- Filling one cell: a present value is kept; a NaN cell receives the
statistic — and stays NaN if the statistic itself is NaN, as
`fillna` does. -/
def fillCell (v : Option ℚ) (cell : Option ℚ) : Option ℚ :=
  match cell with
  | some a => some a
  | none => v

/-- `i.fillna(value=values, inplace=True)` with
`values = {'Age': a, 'Fare': f}`: only the `Age` and `Fare` columns are
touched; every other column is left as it is. -/
def fillnaRow (values : Option ℚ × Option ℚ) (r : RawRow) : RawRow :=
  { r with Age := fillCell values.1 r.Age, Fare := fillCell values.2 r.Fare }

/-- `fillNAN(df)` (01_data_clean.py lines 57-60): computes `calcNAN` of
the FIRST table of the list (`df[0]`, the training table) and fills
every table of the list with those same two statistics. -/
def fillNAN (dfs : List (List RawRow)) : List (List RawRow) :=
  match dfs with
  | [] => []
  | df0 :: _ => dfs.map (List.map (fillnaRow (calcNAN df0)))

/-- The dict lookup `{"male": 1, "female": 0}` performed by
`Series.map` (01_data_clean.py line 65): any other value, NaN included,
becomes NaN. -/
def sexCode (s : Option String) : Option ℚ :=
  match s with
  | some x => if x = "male" then some 1 else if x = "female" then some 0 else none
  | none => none

/-- Recoding of one record: only the `Sex` cell changes type/value. -/
def process_sexRow (r : RawRow) : CleanRow :=
  ⟨r.Pclass, sexCode r.Sex, r.Age, r.SibSp, r.Parch, r.Fare, r.Survived⟩

/-- `process_sex(df)` (01_data_clean.py lines 63-65): recodes the `Sex`
column of every table of the list. -/
def process_sex (dfs : List (List RawRow)) : List (List CleanRow) :=
  dfs.map (List.map process_sexRow)

/-- The cleaning sequence of `main` (01_data_clean.py lines 43-44):
`fillNAN([titanic_train, titanic_test])` followed by
`process_sex([titanic_train, titanic_test])`, both in-place — i.e. the
composition of the two transformations. -/
def cleanTables (train test : List RawRow) : List (List CleanRow) :=
  process_sex (fillNAN [train, test])

theorem fillCell_some (v : ℚ) (cell : Option ℚ) :
    fillCell (some v) cell = some (cell.getD v) := by
  cases cell <;> rfl

theorem colMean_of_ne_nil {col : List (Option ℚ)} (h : nonMissing col ≠ []) :
    colMean col = some (meanSpec (nonMissing col)) :=
  if_neg (fun hl => h (List.length_eq_zero.mp hl))

theorem colMedian_of_ne_nil {col : List (Option ℚ)} (h : nonMissing col ≠ []) :
    colMedian col = some (medianSpec (nonMissing col)) :=
  if_neg (fun hl => h (List.length_eq_zero.mp hl))

theorem getD_map_lt {α β : Type} (f : α → β) (l : List α) (d : β) (d0 : α) {j : ℕ}
    (hj : j < l.length) : (l.map f).getD j d = f (l.getD j d0) := by
  rw [List.getD_eq_getElem?_getD, List.getElem?_map, List.getElem?_eq_getElem hj,
    List.getD_eq_getElem?_getD, List.getElem?_eq_getElem hj]
  rfl

/-- C2: for every train/test pair whose train `Age` and `Fare` columns
each have at least one non-missing value, `fillNAN` fills every missing
`Age` in BOTH tables with the arithmetic mean of the train table's
non-missing ages, and every missing `Fare` in BOTH tables with the
median of the train table's non-missing fares; present values are kept,
and the test table's own statistics never enter (both fill values are
computed from `train` only, the first element of the list passed to
`fillNAN`). -/
theorem c2_fill_from_train_statistics (train test : List RawRow)
    (ha : nonMissing (train.map (fun r => r.Age)) ≠ [])
    (hf : nonMissing (train.map (fun r => r.Fare)) ≠ []) :
    fillNAN [train, test] =
      [train.map (fun r =>
        { r with
          Age := some (r.Age.getD (meanSpec (nonMissing (train.map (fun s => s.Age))))),
          Fare := some (r.Fare.getD (medianSpec (nonMissing (train.map (fun s => s.Fare))))) }),
       test.map (fun r =>
        { r with
          Age := some (r.Age.getD (meanSpec (nonMissing (train.map (fun s => s.Age))))),
          Fare := some (r.Fare.getD (medianSpec (nonMissing (train.map (fun s => s.Fare))))) })] := by
  have hrow : ∀ r : RawRow, fillnaRow (calcNAN train) r =
      { r with
        Age := some (r.Age.getD (meanSpec (nonMissing (train.map (fun s => s.Age))))),
        Fare := some (r.Fare.getD (medianSpec (nonMissing (train.map (fun s => s.Fare))))) } := by
    intro r
    unfold fillnaRow calcNAN
    rw [colMean_of_ne_nil ha, colMedian_of_ne_nil hf, fillCell_some, fillCell_some]
  show [train.map (fillnaRow (calcNAN train)), test.map (fillnaRow (calcNAN train))] = _
  rw [List.map_congr_left (fun r _ => hrow r), List.map_congr_left (fun r _ => hrow r)]

/-- The train table of the concrete scenario of C2:
`Age = [22, NaN, 24]`, `Fare = [7, 8, NaN]`. -/
def trainC2 : List RawRow :=
  [⟨some 3, some "male", some 22, some 1, some 0, some 7, some 0⟩,
   ⟨some 1, some "female", none, some 0, some 0, some 8, some 1⟩,
   ⟨some 2, some "male", some 24, some 0, some 0, none, some 1⟩]

/-- A test table with the same missing pattern (a missing `Age` and a
missing `Fare`). -/
def testC2 : List RawRow :=
  [⟨some 3, some "female", none, some 0, some 0, none, some 1⟩,
   ⟨some 2, some "male", some 30, some 1, some 1, some 10, none⟩]

/-- Witness for C2: on the concrete scenario the `Age` fill value is
`mean(22, 24) = 23` and the `Fare` fill value is `median(7, 8) = 7.5`,
both applied identically to the test table. -/
theorem c2_witness :
    fillNAN [trainC2, testC2] =
      [[⟨some 3, some "male", some 22, some 1, some 0, some 7, some 0⟩,
        ⟨some 1, some "female", some 23, some 0, some 0, some 8, some 1⟩,
        ⟨some 2, some "male", some 24, some 0, some 0, some (15/2), some 1⟩],
       [⟨some 3, some "female", some 23, some 0, some 0, some (15/2), some 1⟩,
        ⟨some 2, some "male", some 30, some 1, some 1, some 10, none⟩]] := by
  have h := c2_fill_from_train_statistics trainC2 testC2 (by decide) (by decide)
  rw [h]
  norm_num [trainC2, testC2, nonMissing, meanSpec, medianSpec, List.insertionSort,
    List.orderedInsert, List.getD, List.filterMap]

theorem getD_mem {α : Type} (l : List α) (d : α) {j : ℕ} (hj : j < l.length) :
    l.getD j d ∈ l := by
  rw [List.getD_eq_getElem?_getD, List.getElem?_eq_getElem hj, Option.getD_some]
  exact List.getElem_mem hj

/-- C5: on a table whose `Sex` column holds only `"male"` and
`"female"`, `process_sex` recodes every `"male"` to `1` and every
`"female"` to `0`; afterwards the column holds only values in `{0, 1}`
and the number of `1`s equals the number of original `"male"`
entries. -/
theorem c5_process_sex_recode (df : List RawRow)
    (h : ∀ r ∈ df, r.Sex = some "male" ∨ r.Sex = some "female") :
    process_sex [df] = [df.map process_sexRow] ∧
    (∀ r ∈ df, r.Sex = some "male" → (process_sexRow r).Sex = some 1) ∧
    (∀ r ∈ df, r.Sex = some "female" → (process_sexRow r).Sex = some 0) ∧
    (∀ r ∈ df.map process_sexRow, r.Sex = some 0 ∨ r.Sex = some 1) ∧
    (df.map process_sexRow).countP (fun r => decide (r.Sex = some 1)) =
      df.countP (fun r => decide (r.Sex = some "male")) := by
  refine ⟨rfl, fun r _ hm => by simp [process_sexRow, sexCode, hm],
    fun r _ hfem => by simp [process_sexRow, sexCode, hfem], ?_, ?_⟩
  · intro r hr
    obtain ⟨r0, hr0, rfl⟩ := List.mem_map.mp hr
    rcases h r0 hr0 with hm | hfem
    · right; simp [process_sexRow, sexCode, hm]
    · left; simp [process_sexRow, sexCode, hfem]
  · rw [List.countP_map, List.countP_eq_length_filter, List.countP_eq_length_filter]
    congr 1
    apply List.filter_congr
    intro r0 hr0
    rcases h r0 hr0 with hm | hfem
    · norm_num [Function.comp, process_sexRow, sexCode, hm]
    · norm_num [Function.comp, process_sexRow, sexCode, hfem]

/-- Witness for C5 on a concrete three-row table (two males, one
female). -/
theorem c5_witness :
    (trainC2.map process_sexRow).countP (fun r => decide (r.Sex = some 1)) =
      trainC2.countP (fun r => decide (r.Sex = some "male")) :=
  (c5_process_sex_recode trainC2 (by decide)).2.2.2.2

/-- C10: the missing-value fill touches only the `Age` and `Fare`
columns: `fillna` is called with a dict holding exactly those two keys,
so `Pclass`, `Sex`, `SibSp`, `Parch` and `Survived` are returned
untouched for every record of both tables — in particular a `Survived`
entry left missing by the label join is still missing after the whole
cleaning sequence (`Survived` column of `cleanTables` = `Survived`
column of the input). -/
theorem c10_fill_touches_only_age_fare (train test : List RawRow) :
    fillNAN [train, test] =
      [train.map (fillnaRow (calcNAN train)), test.map (fillnaRow (calcNAN train))] ∧
    (∀ r : RawRow,
      (fillnaRow (calcNAN train) r).Pclass = r.Pclass ∧
      (fillnaRow (calcNAN train) r).Sex = r.Sex ∧
      (fillnaRow (calcNAN train) r).SibSp = r.SibSp ∧
      (fillnaRow (calcNAN train) r).Parch = r.Parch ∧
      (fillnaRow (calcNAN train) r).Survived = r.Survived) ∧
    ((cleanTables train test).getD 0 []).map (fun r => r.Survived) =
      train.map (fun r => r.Survived) ∧
    ((cleanTables train test).getD 1 []).map (fun r => r.Survived) =
      test.map (fun r => r.Survived) := by
  refine ⟨rfl, fun r => ⟨rfl, rfl, rfl, rfl, rfl⟩, ?_, ?_⟩
  · show ((train.map (fillnaRow (calcNAN train))).map process_sexRow).map
        (fun r => r.Survived) = train.map (fun r => r.Survived)
    rw [List.map_map, List.map_map]
    exact List.map_congr_left (fun r _ => rfl)
  · show ((test.map (fillnaRow (calcNAN train))).map process_sexRow).map
        (fun r => r.Survived) = test.map (fun r => r.Survived)
    rw [List.map_map, List.map_map]
    exact List.map_congr_left (fun r _ => rfl)

/-- C8: when the train table's `Age` and `Fare` columns each have a
non-missing value and every `Sex` value of both raw tables is `"male"`
or `"female"`, every record of both cleaned tables has a non-missing
`Age`, a non-missing `Fare` and a numeric (non-NaN) `Sex`. -/
theorem c8_cleaned_records_complete (train test : List RawRow)
    (ha : nonMissing (train.map (fun r => r.Age)) ≠ [])
    (hf : nonMissing (train.map (fun r => r.Fare)) ≠ [])
    (hs : ∀ r ∈ train ++ test, r.Sex = some "male" ∨ r.Sex = some "female") :
    ∀ i j, i < 2 → j < ([train, test].getD i []).length →
      ((((cleanTables train test).getD i []).getD j default).Age.isSome = true) ∧
      ((((cleanTables train test).getD i []).getD j default).Fare.isSome = true) ∧
      ((((cleanTables train test).getD i []).getD j default).Sex.isSome = true) := by
  intro i j hi hj
  interval_cases i
  · have hj' : j < train.length := by simpa using hj
    have hct : (cleanTables train test).getD 0 [] =
        (train.map (fillnaRow (calcNAN train))).map process_sexRow := rfl
    rw [hct, getD_map_lt process_sexRow _ default default (by simpa using hj'),
      getD_map_lt (fillnaRow (calcNAN train)) _ default default hj']
    have hr0 : train.getD j default ∈ train := getD_mem train default hj'
    generalize hg : train.getD j default = r0 at hr0 ⊢
    rcases hs _ (List.mem_append.mpr (Or.inl hr0)) with hsx | hsx <;>
      simp [process_sexRow, fillnaRow, calcNAN, colMean_of_ne_nil ha,
        colMedian_of_ne_nil hf, fillCell_some, sexCode, hsx]
  · have hj' : j < test.length := by simpa using hj
    have hct : (cleanTables train test).getD 1 [] =
        (test.map (fillnaRow (calcNAN train))).map process_sexRow := rfl
    rw [hct, getD_map_lt process_sexRow _ default default (by simpa using hj'),
      getD_map_lt (fillnaRow (calcNAN train)) _ default default hj']
    have hr0 : test.getD j default ∈ test := getD_mem test default hj'
    generalize hg : test.getD j default = r0 at hr0 ⊢
    rcases hs _ (List.mem_append.mpr (Or.inr hr0)) with hsx | hsx <;>
      simp [process_sexRow, fillnaRow, calcNAN, colMean_of_ne_nil ha,
        colMedian_of_ne_nil hf, fillCell_some, sexCode, hsx]

/-- Witness for C8 at the concrete C2 tables, second train record (the
one whose raw `Age` is missing). -/
theorem c8_witness :
    ((((cleanTables trainC2 testC2).getD 0 []).getD 1 default).Age.isSome = true) ∧
    ((((cleanTables trainC2 testC2).getD 0 []).getD 1 default).Fare.isSome = true) ∧
    ((((cleanTables trainC2 testC2).getD 0 []).getD 1 default).Sex.isSome = true) :=
  c8_cleaned_records_complete trainC2 testC2 (by decide) (by decide) (by decide)
    0 1 (by decide) (by decide)

/-- A cleaned dataframe as read by `data_analysis.py`: named columns
over rows of rationals.  The first CSV column is consumed as the row
index (`index_col = 0`) and is not among the columns.  Column labels of
a well-formed frame are distinct (pandas attribute access
`data.Survived` presupposes an unambiguous label). -/
structure Table where
  names : List String
  rows : List (List ℚ)
deriving DecidableEq, Repr, Inhabited

/-- `split_data(data)` (data_analysis.py lines 70-73):
`X = data.iloc[:, 0:-1]` — all rows, every column but the last — and
`y = data.Survived` — the column labelled `Survived`. -/
def split_data (data : Table) : Table × List ℚ :=
  let X : Table := ⟨data.names.dropLast, data.rows.map List.dropLast⟩
  let idx := data.names.findIdx (fun n => n == "Survived")
  let y := data.rows.map (fun r => r.getD idx 0)
  (X, y)

theorem findIdx_append_singleton (front : List String) (hfront : "Survived" ∉ front) :
    (front ++ ["Survived"]).findIdx (fun n => n == "Survived") = front.length := by
  induction front with
  | nil => rfl
  | cons a l ih =>
      have ha : ¬ a = "Survived" := fun h => hfront (h ▸ List.mem_cons_self a l)
      have hl : "Survived" ∉ l := fun h => hfront (List.mem_cons_of_mem a h)
      have hb : (a == "Survived") = false := beq_eq_false_iff_ne.mpr ha
      simp [List.findIdx_cons, hb, ih hl]

/-- C6: on an `N`-row, `M`-column table whose last column is labelled
`Survived` (and no other column is), `split_data` returns a feature
table made of the first `M - 1` columns of all `N` rows — row `j` of
`X` is row `j` of the input without its last cell — and a target series
of length `N` whose entry `j` is the `Survived` (last) cell of row
`j`. -/
theorem c6_split_data_shapes (data : Table) (front : List String)
    (hn : data.names = front ++ ["Survived"])
    (hfront : "Survived" ∉ front)
    (hrows : ∀ r ∈ data.rows, r.length = data.names.length) :
    (split_data data).1.names.length = data.names.length - 1 ∧
    (split_data data).1.rows.length = data.rows.length ∧
    (∀ r ∈ (split_data data).1.rows, r.length = data.names.length - 1) ∧
    (∀ j, j < data.rows.length →
      (split_data data).1.rows.getD j [] = (data.rows.getD j []).dropLast) ∧
    (split_data data).2.length = data.rows.length ∧
    (∀ j, j < data.rows.length →
      (split_data data).2.getD j 0 = (data.rows.getD j []).getD (data.names.length - 1) 0) := by
  have hidx : data.names.findIdx (fun n => n == "Survived") = data.names.length - 1 := by
    rw [hn, findIdx_append_singleton front hfront]
    simp
  refine ⟨by simp [split_data], by simp [split_data], ?_, fun j hj => ?_, by simp [split_data],
    fun j hj => ?_⟩
  · intro r hr
    obtain ⟨r0, hr0, rfl⟩ := List.mem_map.mp hr
    rw [List.length_dropLast, hrows r0 hr0]
  · exact getD_map_lt List.dropLast data.rows [] [] hj
  · show (data.rows.map (fun r => r.getD (data.names.findIdx (fun n => n == "Survived")) 0)).getD
        j 0 = _
    rw [getD_map_lt (fun r => r.getD (data.names.findIdx (fun n => n == "Survived")) 0)
      data.rows 0 [] hj, hidx]

/-- A concrete 2-row, 3-column cleaned table. -/
def tableC6 : Table :=
  ⟨["Pclass", "Sex", "Survived"], [[3, 1, 0], [1, 0, 1]]⟩

/-- Witness for C6 at `tableC6`. -/
theorem c6_witness :
    (split_data tableC6).1.names.length = tableC6.names.length - 1 ∧
    (split_data tableC6).1.rows.length = tableC6.rows.length ∧
    (split_data tableC6).2.length = tableC6.rows.length ∧
    (split_data tableC6).2.getD 0 0 = (tableC6.rows.getD 0 []).getD (tableC6.names.length - 1) 0 :=
  ⟨(c6_split_data_shapes tableC6 ["Pclass", "Sex"] rfl (by decide) (by decide)).1,
   (c6_split_data_shapes tableC6 ["Pclass", "Sex"] rfl (by decide) (by decide)).2.1,
   (c6_split_data_shapes tableC6 ["Pclass", "Sex"] rfl (by decide) (by decide)).2.2.2.2.1,
   (c6_split_data_shapes tableC6 ["Pclass", "Sex"] rfl (by decide) (by decide)).2.2.2.2.2 0
     (by decide)⟩

/-- pandas column assignment `df["Prediction"] = predictions` on a frame
that lacks a `Prediction` column: the new column is appended on the
right.  (pandas aligns/raises on length mismatch; in `predict` the
prediction vector always has exactly one entry per row.) -/
def setPredictionCol (t : Table) (vals : List ℚ) : Table :=
  ⟨t.names ++ ["Prediction"], t.rows.zipWith (fun r v => r ++ [v]) vals⟩

/-- `predict(tree, feature_set, whole_set)` (data_analysis.py lines
110-114), the fitted tree abstracted as a function from a feature row
to its predicted label.  `tree_predict = whole_set.copy()` is a fresh
frame, so the column assignment touches only the copy; the result pair
is (the prediction table, the caller's `whole_set` as it stands after
the call). -/
def predict (tree : List ℚ → ℚ) (feature_set : Table) (whole_set : Table) :
    Table × Table :=
  let predictions := feature_set.rows.map tree
  let tree_predict := whole_set
  (setPredictionCol tree_predict predictions, whole_set)

theorem getD_zipWith {α β γ : Type} (f : α → β → γ) :
    ∀ (l1 : List α) (l2 : List β) (j : ℕ) (d : γ) (d1 : α) (d2 : β),
      j < l1.length → j < l2.length →
      (List.zipWith f l1 l2).getD j d = f (l1.getD j d1) (l2.getD j d2)
  | [], _, _, _, _, _, h1, _ => absurd h1 (by simp)
  | _ :: _, [], _, _, _, _, _, h2 => absurd h2 (by simp)
  | a :: l1, b :: l2, 0, d, d1, d2, _, _ => rfl
  | a :: l1, b :: l2, j + 1, d, d1, d2, h1, h2 => by
      rw [List.zipWith_cons_cons, List.getD_cons_succ, List.getD_cons_succ,
        List.getD_cons_succ]
      exact getD_zipWith f l1 l2 j d d1 d2 (by simpa using h1) (by simpa using h2)

/-- C9: `predict` leaves the input dataset untouched (the returned
post-call state of `whole_set` is `whole_set` itself, thanks to
`.copy()`), and the prediction table is the input with exactly one
appended `Prediction` column: same row count, row `j` is input row `j`
followed by the tree's prediction for feature row `j` — so dropping the
appended cell of any row recovers the input row unchanged. -/
theorem c9_predict_appends_only (tree : List ℚ → ℚ) (feature_set whole_set : Table)
    (h : feature_set.rows.length = whole_set.rows.length) :
    (predict tree feature_set whole_set).2 = whole_set ∧
    (predict tree feature_set whole_set).1.names = whole_set.names ++ ["Prediction"] ∧
    (predict tree feature_set whole_set).1.rows.length = whole_set.rows.length ∧
    (∀ j, j < whole_set.rows.length →
      (predict tree feature_set whole_set).1.rows.getD j [] =
        whole_set.rows.getD j [] ++ [tree (feature_set.rows.getD j [])]) ∧
    (∀ j, j < whole_set.rows.length →
      ((predict tree feature_set whole_set).1.rows.getD j []).dropLast =
        whole_set.rows.getD j []) := by
  have hrow : ∀ j, j < whole_set.rows.length →
      (predict tree feature_set whole_set).1.rows.getD j [] =
        whole_set.rows.getD j [] ++ [tree (feature_set.rows.getD j [])] := by
    intro j hj
    show (whole_set.rows.zipWith (fun r v => r ++ [v]) (feature_set.rows.map tree)).getD
        j [] = _
    rw [getD_zipWith (fun r v => r ++ [v]) whole_set.rows (feature_set.rows.map tree)
      j [] [] 0 hj (by simp [h, hj]),
      getD_map_lt tree feature_set.rows 0 [] (by omega)]
  refine ⟨rfl, rfl, ?_, hrow, fun j hj => ?_⟩
  · show (whole_set.rows.zipWith (fun r v => r ++ [v]) (feature_set.rows.map tree)).length = _
    rw [List.length_zipWith]
    simp [h]
  · rw [hrow j hj, List.dropLast_concat]

/-- Witness for C9 at a concrete tree and tables. -/
theorem c9_witness :
    (predict (fun r => r.getD 0 0) ⟨["Pclass", "Sex"], [[3, 1], [1, 0]]⟩ tableC6).2 = tableC6 ∧
    (predict (fun r => r.getD 0 0) ⟨["Pclass", "Sex"], [[3, 1], [1, 0]]⟩ tableC6).1.names =
      tableC6.names ++ ["Prediction"] ∧
    (predict (fun r => r.getD 0 0) ⟨["Pclass", "Sex"], [[3, 1], [1, 0]]⟩
        tableC6).1.rows.getD 0 [] =
      tableC6.rows.getD 0 [] ++ [(fun r : List ℚ => r.getD 0 0)
        ((⟨["Pclass", "Sex"], [[3, 1], [1, 0]]⟩ : Table).rows.getD 0 [])] :=
  ⟨(c9_predict_appends_only (fun r => r.getD 0 0) ⟨["Pclass", "Sex"], [[3, 1], [1, 0]]⟩
      tableC6 (by decide)).1,
   (c9_predict_appends_only (fun r => r.getD 0 0) ⟨["Pclass", "Sex"], [[3, 1], [1, 0]]⟩
      tableC6 (by decide)).2.1,
   (c9_predict_appends_only (fun r => r.getD 0 0) ⟨["Pclass", "Sex"], [[3, 1], [1, 0]]⟩
      tableC6 (by decide)).2.2.2.1 0 (by decide)⟩

end Titanic
